import Mathlib

/-!
# EduVision core logic: shallow embedding and verification

This file embeds the two non-trivial components of the EduVision single-page
application — the weighted-random rarity roller and the haversine proximity
filter — as Lean definitions, and proves the specified properties about them.

The rarity roller (`rollRarity`) draws a uniform value in `[0, totalWeight)`
and walks the fixed tier table `RARITIES`, subtracting weights, returning the
first tier at which the running remainder becomes `≤ 0`, with a `"common"`
fallback when the walk exhausts the table.  The random draw
`Math.random() * totalWeight` is modelled as an explicit parameter `u`; every
IEEE double is rational, so draws are modelled as rationals.

The proximity filter (`loadNearbyQuestions`) annotates each candidate with its
haversine distance from the observer, keeps those within the radius, sorts
ascending by distance, and truncates to a result cap.  JavaScript
`Array.prototype.sort` is specified (ES2019) to be a stable sort, and the
comparator `(a, b) => a.distance - b.distance` orders by non-decreasing
distance, so the sort step is modelled by `List.mergeSort` with the weak order
`distLE`.  Candidate records are modelled by `Question` with an identity
field, coordinates, and a `distance` field; the JavaScript spread
`{...q, distance: ...}` overwrites any pre-existing `distance` field, which is
exactly what `scoreQuestion` does.  Trigonometry is over the real numbers, so
the distance-dependent definitions are noncomputable; the real-number `decide`
instances are the classical ones.

Three app variants exist; their nearby-question loaders are embedded
separately: `loadNearbyQuestions` (Firestore + Google auth),
`loadNearbyQuestionsUsername` (Firestore + username), and
`loadNearbyQuestionsLocal` (localStorage).  The localStorage variant re-reads
each of the first 20 survivors from its per-id store and merges the stored
record over the index entry (`{...entry, ...data}`: the stored record carries
the coordinates and payload but no `distance` or `id` field, so those two
fields survive from the entry); the store is modelled as an explicit function
from identity to an optional stored record.
-/

namespace EduVision

/-- A rarity tier record, with the same fields as the `RARITIES` entries in
the source (identifier, display label, point value, presentation metadata,
sampling weight, icon). -/
structure Rarity where
  id : String
  label : String
  points : Nat
  color : String
  bg : String
  border : String
  glow : String
  weight : ℚ
  icon : String

/-- The fixed tier table `RARITIES` from the source. -/
def RARITIES : List Rarity :=
  [⟨"common", "Common", 10, "#667085", "#F4F5F7", "#D0D5DD", "none", 50, "○"⟩,
   ⟨"uncommon", "Uncommon", 25, "#2B7A5F", "#ECFDF3", "#6CE9A6", "none", 30, "◆"⟩,
   ⟨"rare", "Rare", 50, "#3A6BE8", "#EDF2FE", "#93B4FD", "0 0 8px rgba(58,107,232,0.3)", 13, "★"⟩,
   ⟨"epic", "Epic", 100, "#9B5DE5", "#F4EDFB", "#C4A1F0", "0 0 12px rgba(155,93,229,0.4)", 5, "◈"⟩,
   ⟨"legendary", "Legendary", 250, "#D4851F", "#FFF7ED", "#F6C270", "0 0 16px rgba(212,133,31,0.5)", 2, "✦"⟩]

/-- `RARITIES.reduce((sum, r) => sum + r.weight, 0)` from `rollRarity`. -/
def totalWeight : ℚ := RARITIES.foldl (fun sum r => sum + r.weight) 0

/-- The loop of `rollRarity`: subtract each tier weight in order from the
running roll value and return the first tier at which the remainder becomes
`≤ 0`; `none` when the walk exhausts the list. -/
def rollWalk : ℚ → List Rarity → Option String
  | _, [] => none
  | roll, r :: rs =>
    if roll - r.weight ≤ 0 then some r.id else rollWalk (roll - r.weight) rs

/-- `rollRarity` from the source, with the draw `Math.random() * totalWeight`
made an explicit parameter `u`.  The trailing `return "common"` is the
fallback when the walk exhausts all tiers. -/
def rollRarity (u : ℚ) : String := (rollWalk u RARITIES).getD "common"

/-- `getRarity` from the source:
`RARITIES.find((r) => r.id === id) || RARITIES[0]`. -/
def getRarity (id : String) : Rarity :=
  (RARITIES.find? (fun r => r.id == id)).getD (RARITIES.get ⟨0, by decide⟩)

/-- JavaScript `Math.atan2` under exact real arithmetic. -/
noncomputable def atan2 (y x : ℝ) : ℝ :=
  if 0 < x then Real.arctan (y / x)
  else if x < 0 then
    (if 0 ≤ y then Real.arctan (y / x) + Real.pi else Real.arctan (y / x) - Real.pi)
  else if 0 < y then Real.pi / 2
  else if y < 0 then -(Real.pi / 2)
  else 0

/-- `haversineDistance` from the source (identical in all variants):
`R = 6371000`, `toRad = d => d * Math.PI / 180`,
`a = sin(dLat/2)^2 + cos(toRad lat1) * cos(toRad lat2) * sin(dLon/2)^2`,
result `R * 2 * atan2(sqrt a, sqrt (1 - a))`. -/
noncomputable def haversineDistance (lat1 lon1 lat2 lon2 : ℝ) : ℝ :=
  let R : ℝ := 6371000
  let toRad : ℝ → ℝ := fun d => d * Real.pi / 180
  let dLat := toRad (lat2 - lat1)
  let dLon := toRad (lon2 - lon1)
  let a := Real.sin (dLat / 2) ^ 2 +
    Real.cos (toRad lat1) * Real.cos (toRad lat2) * Real.sin (dLon / 2) ^ 2
  R * 2 * atan2 (Real.sqrt a) (Real.sqrt (1 - a))

/-- The haversine reference definition written from the words of the spec:
with all angles converted to radians, `Δlat = lat2 − lat1` and
`Δlon = lon2 − lon1` in radians,
`a = sin²(Δlat/2) + cos(lat1)·cos(lat2)·sin²(Δlon/2)` and
`distance = 2 · R · atan2(√a, √(1−a))` with mean Earth radius `R = 6371000`
meters. -/
noncomputable def specHaversineDistance (lat1 lon1 lat2 lon2 : ℝ) : ℝ :=
  let R : ℝ := 6371000
  let rad : ℝ → ℝ := fun d => d * Real.pi / 180
  let a := Real.sin ((rad lat2 - rad lat1) / 2) ^ 2 +
    Real.cos (rad lat1) * Real.cos (rad lat2) * Real.sin ((rad lon2 - rad lon1) / 2) ^ 2
  2 * R * atan2 (Real.sqrt a) (Real.sqrt (1 - a))

/-- A geo-tagged question record as the proximity filter sees it: an identity
(standing for the document id and payload fields, which the filter never
reads), coordinates, and the `distance` field that the filter writes.  The
JavaScript spread `{...q, distance: ...}` overwrites any incoming `distance`
value, so carrying the field on the input type is faithful. -/
structure Question where
  id : ℕ
  lat : ℝ
  lng : ℝ
  distance : ℝ

/-- `q => ({ ...q, distance: haversineDistance(userLat, userLng, q.lat, q.lng) })`. -/
noncomputable def scoreQuestion (userLat userLng : ℝ) (q : Question) : Question :=
  ⟨q.id, q.lat, q.lng, haversineDistance userLat userLng q.lat q.lng⟩

/-- The filter predicate `q => q.distance <= radiusMeters`. -/
noncomputable def distWithin (radiusMeters : ℝ) (q : Question) : Bool :=
  decide (q.distance ≤ radiusMeters)

/-- The sort comparator `(a, b) => a.distance - b.distance` as the weak order
it induces: `a` may come before `b` exactly when `a.distance ≤ b.distance`. -/
noncomputable def distLE (a b : Question) : Bool := decide (a.distance ≤ b.distance)

/-- The map-and-filter stage shared by all variants: annotate every candidate
with its distance and keep those within the radius. -/
noncomputable def scoredWithin (userLat userLng radiusMeters : ℝ)
    (allQuestions : List Question) : List Question :=
  (allQuestions.map (scoreQuestion userLat userLng)).filter (distWithin radiusMeters)

/-- `loadNearbyQuestions` of the Firestore + Google-auth variant: map to
distances, filter by radius, stable-sort ascending by distance,
`slice(0, 30)`.  In the source `radiusMeters` defaults to `50000` and the
candidate list is the result of `loadAllQuestions()`; both are explicit
parameters here. -/
noncomputable def loadNearbyQuestions (userLat userLng radiusMeters : ℝ)
    (allQuestions : List Question) : List Question :=
  ((((allQuestions.map (fun q =>
        (⟨q.id, q.lat, q.lng, haversineDistance userLat userLng q.lat q.lng⟩ : Question))).filter
      (fun q => decide (q.distance ≤ radiusMeters))).mergeSort
      (fun a b => decide (a.distance ≤ b.distance))).take 30)

/-- `loadNearbyQuestions` of the Firestore + username variant; its body is
textually identical to the Google-auth variant. -/
noncomputable def loadNearbyQuestionsUsername (userLat userLng radiusMeters : ℝ)
    (allQuestions : List Question) : List Question :=
  ((((allQuestions.map (fun q =>
        (⟨q.id, q.lat, q.lng, haversineDistance userLat userLng q.lat q.lng⟩ : Question))).filter
      (fun q => decide (q.distance ≤ radiusMeters))).mergeSort
      (fun a b => decide (a.distance ≤ b.distance))).take 30)

/-- `loadNearbyQuestions` of the localStorage variant: same map, filter and
stable sort over the index, then `slice(0, 20)` and, for each surviving
entry, a per-id store read `localStorage.getItem(entry.id)`; entries whose
stored record is missing are dropped, and a found record is merged over the
entry by `{...entry, ...data}` (the stored record has coordinates but no
`distance` or `id` field, so those survive from the entry). -/
noncomputable def loadNearbyQuestionsLocal (store : ℕ → Option Question)
    (userLat userLng radiusMeters : ℝ) (index : List Question) : List Question :=
  (((((index.map (fun e =>
        (⟨e.id, e.lat, e.lng, haversineDistance userLat userLng e.lat e.lng⟩ : Question))).filter
      (fun e => decide (e.distance ≤ radiusMeters))).mergeSort
      (fun a b => decide (a.distance ≤ b.distance))).take 20).filterMap
    (fun entry => (store entry.id).map (fun data =>
      (⟨entry.id, data.lat, data.lng, entry.distance⟩ : Question))))

/-- Written from the words of the spec: the number of candidates whose
haversine distance from the observer is within the radius. -/
noncomputable def specCountWithin (userLat userLng radiusMeters : ℝ)
    (allQuestions : List Question) : ℕ :=
  (allQuestions.filter
    (fun q => decide (haversineDistance userLat userLng q.lat q.lng ≤ radiusMeters))).length

theorem totalWeight_eq : totalWeight = 100 := by
  simp [totalWeight, RARITIES, List.foldl]
  norm_num

theorem rollWalk_RARITIES (u : ℚ) :
    rollWalk u RARITIES =
      if u - 50 ≤ 0 then some "common"
      else if u - 50 - 30 ≤ 0 then some "uncommon"
      else if u - 50 - 30 - 13 ≤ 0 then some "rare"
      else if u - 50 - 30 - 13 - 5 ≤ 0 then some "epic"
      else if u - 50 - 30 - 13 - 5 - 2 ≤ 0 then some "legendary"
      else none := by
  simp only [RARITIES, rollWalk]

/-- C3: the roller selects by drawing `u` in `[0, totalWeight)` and walking
the tier list in fixed order, subtracting each weight and returning the first
tier at which the remainder becomes `≤ 0` (this is `rollWalk`); consequently
the set of draws yielding each tier is an interval whose length is exactly
that tier's configured weight, so tier `i` has probability
`weight_i / totalWeight` — with the configured table, common 50, uncommon 30,
rare 13, epic 5 and legendary 2 out of 100. -/
theorem rollRarity_distribution :
    totalWeight = 100 ∧
    {u : ℚ | 0 ≤ u ∧ u < totalWeight ∧ rollRarity u = "common"} = Set.Icc 0 50 ∧
    {u : ℚ | 0 ≤ u ∧ u < totalWeight ∧ rollRarity u = "uncommon"} = Set.Ioc 50 80 ∧
    {u : ℚ | 0 ≤ u ∧ u < totalWeight ∧ rollRarity u = "rare"} = Set.Ioc 80 93 ∧
    {u : ℚ | 0 ≤ u ∧ u < totalWeight ∧ rollRarity u = "epic"} = Set.Ioc 93 98 ∧
    {u : ℚ | 0 ≤ u ∧ u < totalWeight ∧ rollRarity u = "legendary"} = Set.Ioo 98 100 ∧
    (getRarity "common").weight = 50 - 0 ∧
    (getRarity "uncommon").weight = 80 - 50 ∧
    (getRarity "rare").weight = 93 - 80 ∧
    (getRarity "epic").weight = 98 - 93 ∧
    (getRarity "legendary").weight = 100 - 98 := by
  refine ⟨totalWeight_eq, ?_, ?_, ?_, ?_, ?_, ?_, ?_, ?_, ?_, ?_⟩
  · ext u
    simp only [Set.mem_setOf_eq, Set.mem_Icc, totalWeight_eq, rollRarity, rollWalk_RARITIES]
    constructor
    · rintro ⟨h0, h100, h⟩
      split_ifs at h <;> simp_all <;> first
        | (constructor <;> linarith)
        | linarith
    · rintro ⟨h1, h2⟩
      refine ⟨by linarith, by linarith, ?_⟩
      rw [if_pos (by linarith)]
      rfl
  · ext u
    simp only [Set.mem_setOf_eq, Set.mem_Ioc, totalWeight_eq, rollRarity, rollWalk_RARITIES]
    constructor
    · rintro ⟨h0, h100, h⟩
      split_ifs at h <;> simp_all <;> first
        | (constructor <;> linarith)
        | linarith
    · rintro ⟨h1, h2⟩
      refine ⟨by linarith, by linarith, ?_⟩
      rw [if_neg (by linarith), if_pos (by linarith)]
      rfl
  · ext u
    simp only [Set.mem_setOf_eq, Set.mem_Ioc, totalWeight_eq, rollRarity, rollWalk_RARITIES]
    constructor
    · rintro ⟨h0, h100, h⟩
      split_ifs at h <;> simp_all <;> first
        | (constructor <;> linarith)
        | linarith
    · rintro ⟨h1, h2⟩
      refine ⟨by linarith, by linarith, ?_⟩
      rw [if_neg (by linarith), if_neg (by linarith), if_pos (by linarith)]
      rfl
  · ext u
    simp only [Set.mem_setOf_eq, Set.mem_Ioc, totalWeight_eq, rollRarity, rollWalk_RARITIES]
    constructor
    · rintro ⟨h0, h100, h⟩
      split_ifs at h <;> simp_all <;> first
        | (constructor <;> linarith)
        | linarith
    · rintro ⟨h1, h2⟩
      refine ⟨by linarith, by linarith, ?_⟩
      rw [if_neg (by linarith), if_neg (by linarith), if_neg (by linarith),
        if_pos (by linarith)]
      rfl
  · ext u
    simp only [Set.mem_setOf_eq, Set.mem_Ioo, totalWeight_eq, rollRarity, rollWalk_RARITIES]
    constructor
    · rintro ⟨h0, h100, h⟩
      split_ifs at h <;> simp_all <;> first
        | (constructor <;> linarith)
        | linarith
    · rintro ⟨h1, h2⟩
      refine ⟨by linarith, by linarith, ?_⟩
      rw [if_neg (by linarith), if_neg (by linarith), if_neg (by linarith),
        if_neg (by linarith), if_pos (by linarith)]
      rfl
  all_goals simp [getRarity, RARITIES, List.find?]
  all_goals norm_num

/-- C4: for every possible draw value `u` — including the boundary `u`
equal to the sum of all weights, and any residual left positive after the
last tier — the roller returns an identifier from the configured tier set,
never an out-of-set result. -/
theorem rollRarity_in_table (u : ℚ) : rollRarity u ∈ RARITIES.map Rarity.id := by
  simp only [rollRarity, rollWalk_RARITIES]
  split_ifs <;> simp [RARITIES]

/-- C9: under exact arithmetic the trailing fallback of `rollRarity` is
unreachable — whenever the draw is strictly below the total weight, the walk
itself selects a tier of the table, so the final `return "common"` never
executes. -/
theorem rollWalk_no_fallback (u : ℚ) (h : u < totalWeight) :
    ∃ r ∈ RARITIES, rollWalk u RARITIES = some r.id := by
  rw [totalWeight_eq] at h
  rw [rollWalk_RARITIES]
  split_ifs with h1 h2 h3 h4 h5
  · exact ⟨RARITIES.get ⟨0, by decide⟩, RARITIES.get_mem _ _, rfl⟩
  · exact ⟨RARITIES.get ⟨1, by decide⟩, RARITIES.get_mem _ _, rfl⟩
  · exact ⟨RARITIES.get ⟨2, by decide⟩, RARITIES.get_mem _ _, rfl⟩
  · exact ⟨RARITIES.get ⟨3, by decide⟩, RARITIES.get_mem _ _, rfl⟩
  · exact ⟨RARITIES.get ⟨4, by decide⟩, RARITIES.get_mem _ _, rfl⟩
  · exact absurd h (by push_neg at h5 ⊢; linarith)

theorem rollWalk_no_fallback_witness :
    (0 : ℚ) < totalWeight ∧ ∃ r ∈ RARITIES, rollWalk 0 RARITIES = some r.id :=
  ⟨by rw [totalWeight_eq]; norm_num,
   rollWalk_no_fallback 0 (by rw [totalWeight_eq]; norm_num)⟩

/-- C10: tier lookup by identifier is total — `getRarity` always returns a
record of the configured table, and on any identifier that matches no tier it
returns the first tier (the `"common"` record) rather than failing. -/
theorem getRarity_total (id : String) :
    getRarity id ∈ RARITIES ∧
    ((∀ r ∈ RARITIES, r.id ≠ id) → getRarity id = RARITIES.get ⟨0, by decide⟩) := by
  constructor
  · unfold getRarity
    cases hf : RARITIES.find? (fun r => r.id == id) with
    | none => exact RARITIES.get_mem _ _
    | some r => exact List.mem_of_find?_eq_some hf
  · intro hid
    unfold getRarity
    rw [List.find?_eq_none.mpr (fun r hr => by simpa using hid r hr)]
    rfl

theorem getRarity_total_witness :
    getRarity "mystery" ∈ RARITIES ∧
    getRarity "mystery" = RARITIES.get ⟨0, by decide⟩ :=
  ⟨(getRarity_total "mystery").1,
   (getRarity_total "mystery").2 (by simp [RARITIES])⟩

/-- C6: the implemented distance function agrees everywhere with the haversine
reference formula stated by the spec. -/
theorem haversineDistance_eq_spec (lat1 lon1 lat2 lon2 : ℝ) :
    haversineDistance lat1 lon1 lat2 lon2 = specHaversineDistance lat1 lon1 lat2 lon2 := by
  simp only [haversineDistance, specHaversineDistance]
  have h1 : (lat2 - lat1) * Real.pi / 180 / 2 =
      (lat2 * Real.pi / 180 - lat1 * Real.pi / 180) / 2 := by ring
  have h2 : (lon2 - lon1) * Real.pi / 180 / 2 =
      (lon2 * Real.pi / 180 - lon1 * Real.pi / 180) / 2 := by ring
  rw [h1, h2]
  ring

theorem haversineDistance_self (lat lng : ℝ) : haversineDistance lat lng lat lng = 0 := by
  simp [haversineDistance, atan2, Real.sqrt_zero, Real.sqrt_one, Real.arctan_zero]

theorem loadNearbyQuestions_eq (userLat userLng radiusMeters : ℝ)
    (allQuestions : List Question) :
    loadNearbyQuestions userLat userLng radiusMeters allQuestions =
      ((scoredWithin userLat userLng radiusMeters allQuestions).mergeSort distLE).take 30 := rfl

theorem loadNearbyQuestionsLocal_eq (store : ℕ → Option Question)
    (userLat userLng radiusMeters : ℝ) (index : List Question) :
    loadNearbyQuestionsLocal store userLat userLng radiusMeters index =
      (((scoredWithin userLat userLng radiusMeters index).mergeSort distLE).take 20).filterMap
        (fun entry => (store entry.id).map (fun data =>
          (⟨entry.id, data.lat, data.lng, entry.distance⟩ : Question))) := rfl

theorem distLE_trans : ∀ (a b c : Question), distLE a b → distLE b c → distLE a c := by
  intro a b c hab hbc
  simp only [distLE, decide_eq_true_eq] at *
  exact le_trans hab hbc

theorem distLE_total : ∀ (a b : Question), distLE a b || distLE b a := by
  intro a b
  simp only [distLE, Bool.or_eq_true, decide_eq_true_eq]
  exact le_total _ _

theorem scoredWithin_length (userLat userLng radiusMeters : ℝ) (allQuestions : List Question) :
    (scoredWithin userLat userLng radiusMeters allQuestions).length =
      specCountWithin userLat userLng radiusMeters allQuestions := by
  unfold scoredWithin specCountWithin
  rw [← List.countP_eq_length_filter, ← List.countP_eq_length_filter, List.countP_map]
  rfl

theorem map_id_of_mem {α : Type} {l : List α} {f : α → α} (h : ∀ a ∈ l, f a = a) :
    l.map f = l := by
  induction l with
  | nil => rfl
  | cons x xs ih =>
    simp only [List.map_cons, h x (List.mem_cons_self x xs)]
    rw [ih (fun a ha => h a (List.mem_cons_of_mem x ha))]

theorem filterMap_some_of_mem {α : Type} {l : List α} {f : α → Option α}
    (h : ∀ a ∈ l, f a = some a) : l.filterMap f = l := by
  induction l with
  | nil => rfl
  | cons x xs ih =>
    rw [List.filterMap_cons, h x (List.mem_cons_self x xs),
      ih (fun a ha => h a (List.mem_cons_of_mem x ha))]

theorem filterMap_some_eq_map {α β : Type} (g : α → β) :
    ∀ (l : List α), l.filterMap (fun a => some (g a)) = l.map g := by
  intro l
  induction l with
  | nil => rfl
  | cons x xs ih => simp [List.filterMap_cons, ih]

theorem scoredWithin_pair :
    scoredWithin 0 0 1 [⟨1, 0, 0, 0⟩, ⟨2, 0, 0, 0⟩] = [⟨1, 0, 0, 0⟩, ⟨2, 0, 0, 0⟩] := by
  unfold scoredWithin
  have h1 : scoreQuestion 0 0 (⟨1, 0, 0, 0⟩ : Question) = ⟨1, 0, 0, 0⟩ := by
    simp [scoreQuestion, haversineDistance_self]
  have h2 : scoreQuestion 0 0 (⟨2, 0, 0, 0⟩ : Question) = ⟨2, 0, 0, 0⟩ := by
    simp [scoreQuestion, haversineDistance_self]
  rw [List.map_cons, List.map_cons, List.map_nil, h1, h2]
  apply List.filter_eq_self.mpr
  intro a ha
  simp only [List.mem_cons, List.not_mem_nil, or_false] at ha
  rcases ha with rfl | rfl <;> simp [distWithin]

theorem scoredWithin_rep :
    scoredWithin 0 0 1 (List.replicate 21 ⟨0, 0, 0, 0⟩) = List.replicate 21 ⟨0, 0, 0, 0⟩ := by
  unfold scoredWithin
  rw [List.map_replicate]
  have hscore : scoreQuestion 0 0 (⟨0, 0, 0, 0⟩ : Question) = ⟨0, 0, 0, 0⟩ := by
    simp [scoreQuestion, haversineDistance_self]
  rw [hscore]
  apply List.filter_eq_self.mpr
  intro a ha
  rw [List.eq_of_mem_replicate ha]
  simp [distWithin]

/-- C1: for every observer coordinate, candidate list and positive radius,
every item of the proximity filter's output carries exactly its computed
haversine distance from the observer, that distance is within the radius, and
the output is sorted non-decreasing by distance. -/
theorem nearby_within_radius_sorted (userLat userLng radiusMeters : ℝ)
    (allQuestions : List Question) (hr : 0 < radiusMeters) :
    (∀ q ∈ loadNearbyQuestions userLat userLng radiusMeters allQuestions,
        q.distance = haversineDistance userLat userLng q.lat q.lng ∧
        q.distance ≤ radiusMeters) ∧
    (loadNearbyQuestions userLat userLng radiusMeters allQuestions).Pairwise
      (fun a b => a.distance ≤ b.distance) := by
  rw [loadNearbyQuestions_eq]
  constructor
  · intro q hq
    have hq1 := List.mem_of_mem_take hq
    rw [List.mem_mergeSort] at hq1
    unfold scoredWithin at hq1
    rw [List.mem_filter] at hq1
    obtain ⟨hmap, hwithin⟩ := hq1
    rw [List.mem_map] at hmap
    obtain ⟨q', _, rfl⟩ := hmap
    simp only [distWithin, decide_eq_true_eq] at hwithin
    exact ⟨rfl, hwithin⟩
  · have hp := List.sorted_mergeSort distLE_trans distLE_total
      (scoredWithin userLat userLng radiusMeters allQuestions)
    have hp2 := hp.sublist (List.take_sublist 30 _)
    exact hp2.imp (fun h => by simpa [distLE] using h)

theorem nearby_within_radius_sorted_witness :
    (0 : ℝ) < 1 ∧
    ((∀ q ∈ loadNearbyQuestions 0 0 1 [], q.distance = haversineDistance 0 0 q.lat q.lng ∧
        q.distance ≤ 1) ∧
      (loadNearbyQuestions 0 0 1 []).Pairwise (fun a b => a.distance ≤ b.distance)) :=
  ⟨one_pos, nearby_within_radius_sorted 0 0 1 [] one_pos⟩

/-- C2 (amended): the result cap of the proximity filter is the fixed
constant 30 rather than a caller-supplied input, and for every observer
coordinate, candidate list and radius the output length is at most
`min 30 (number of candidates within the radius)`. -/
theorem nearby_length_le_cap (userLat userLng radiusMeters : ℝ) (allQuestions : List Question) :
    (loadNearbyQuestions userLat userLng radiusMeters allQuestions).length ≤
      min 30 (specCountWithin userLat userLng radiusMeters allQuestions) := by
  rw [loadNearbyQuestions_eq, ← scoredWithin_length]
  simp [List.length_take]

/-- C2 counterexample: the filter accepts no cap argument, and with the
positive cap 1 of the claim's quantification the claimed bound
`length ≤ min cap (count within radius)` fails — two candidates at the
observer's position within radius 1 yield an output of length 2 > min 1 2. -/
theorem claim2_counterexample :
    0 < 1 ∧
    ¬ ((loadNearbyQuestions 0 0 1 [⟨1, 0, 0, 0⟩, ⟨2, 0, 0, 0⟩]).length ≤
        min 1 (specCountWithin 0 0 1 [⟨1, 0, 0, 0⟩, ⟨2, 0, 0, 0⟩])) := by
  refine ⟨Nat.one_pos, ?_⟩
  have hlen : (loadNearbyQuestions 0 0 1 [⟨1, 0, 0, 0⟩, ⟨2, 0, 0, 0⟩]).length = 2 := by
    rw [loadNearbyQuestions_eq, scoredWithin_pair]
    simp [List.length_take]
  have hcnt : specCountWithin 0 0 1 [⟨1, 0, 0, 0⟩, ⟨2, 0, 0, 0⟩] = 2 := by
    rw [← scoredWithin_length, scoredWithin_pair]
    rfl
  rw [hlen, hcnt]
  omega

/-- C7: the proximity filter is idempotent — feeding its output back through
itself with the same observer coordinate and radius returns the output
unchanged, same elements in the same order. -/
theorem nearby_idempotent (userLat userLng radiusMeters : ℝ) (allQuestions : List Question) :
    loadNearbyQuestions userLat userLng radiusMeters
        (loadNearbyQuestions userLat userLng radiusMeters allQuestions) =
      loadNearbyQuestions userLat userLng radiusMeters allQuestions := by
  have hmem : ∀ q ∈ loadNearbyQuestions userLat userLng radiusMeters allQuestions,
      scoreQuestion userLat userLng q = q ∧ distWithin radiusMeters q = true := by
    intro q hq
    rw [loadNearbyQuestions_eq] at hq
    have hq1 := List.mem_of_mem_take hq
    rw [List.mem_mergeSort] at hq1
    unfold scoredWithin at hq1
    rw [List.mem_filter] at hq1
    obtain ⟨hmap, hwithin⟩ := hq1
    rw [List.mem_map] at hmap
    obtain ⟨q', _, rfl⟩ := hmap
    exact ⟨rfl, hwithin⟩
  have hsorted : (loadNearbyQuestions userLat userLng radiusMeters allQuestions).Pairwise
      (fun a b => distLE a b) := by
    rw [loadNearbyQuestions_eq]
    exact (List.sorted_mergeSort distLE_trans distLE_total _).sublist
      (List.take_sublist 30 _)
  have hlen : (loadNearbyQuestions userLat userLng radiusMeters allQuestions).length ≤ 30 := by
    rw [loadNearbyQuestions_eq]
    exact List.length_take_le _ _
  have hsw : scoredWithin userLat userLng radiusMeters
      (loadNearbyQuestions userLat userLng radiusMeters allQuestions) =
      loadNearbyQuestions userLat userLng radiusMeters allQuestions := by
    unfold scoredWithin
    rw [map_id_of_mem (fun q hq => (hmem q hq).1),
      List.filter_eq_self.mpr (fun q hq => (hmem q hq).2)]
  rw [loadNearbyQuestions_eq userLat userLng radiusMeters
      (loadNearbyQuestions userLat userLng radiusMeters allQuestions), hsw,
    List.mergeSort_of_sorted hsorted, List.take_of_length_le hlen]

/-- C8: the sort step is stable — any two surviving candidates with exactly
equal computed distance keep their original relative order from the candidate
list through the sort, with no additional tie-break key; the filter output is
the 30-prefix of that stably sorted sequence. -/
theorem nearby_stable_ties (userLat userLng radiusMeters : ℝ) (allQuestions : List Question)
    (a b : Question)
    (hsub : List.Sublist [a, b] (scoredWithin userLat userLng radiusMeters allQuestions))
    (heq : a.distance = b.distance) :
    List.Sublist [a, b]
      ((scoredWithin userLat userLng radiusMeters allQuestions).mergeSort distLE) ∧
    loadNearbyQuestions userLat userLng radiusMeters allQuestions =
      ((scoredWithin userLat userLng radiusMeters allQuestions).mergeSort distLE).take 30 := by
  refine ⟨?_, loadNearbyQuestions_eq _ _ _ _⟩
  apply List.pair_sublist_mergeSort distLE_trans distLE_total ?_ hsub
  simp [distLE, heq]

theorem nearby_stable_ties_witness :
    List.Sublist [(⟨1, 0, 0, 0⟩ : Question), ⟨2, 0, 0, 0⟩]
        (scoredWithin 0 0 1 [⟨1, 0, 0, 0⟩, ⟨2, 0, 0, 0⟩]) ∧
    (⟨1, 0, 0, 0⟩ : Question).distance = (⟨2, 0, 0, 0⟩ : Question).distance ∧
    List.Sublist [(⟨1, 0, 0, 0⟩ : Question), ⟨2, 0, 0, 0⟩]
        ((scoredWithin 0 0 1 [⟨1, 0, 0, 0⟩, ⟨2, 0, 0, 0⟩]).mergeSort distLE) := by
  have hsub : List.Sublist [(⟨1, 0, 0, 0⟩ : Question), ⟨2, 0, 0, 0⟩]
      (scoredWithin 0 0 1 [⟨1, 0, 0, 0⟩, ⟨2, 0, 0, 0⟩]) := by
    rw [scoredWithin_pair]
  have heq : (⟨1, 0, 0, 0⟩ : Question).distance = (⟨2, 0, 0, 0⟩ : Question).distance := rfl
  exact ⟨hsub, heq, (nearby_stable_ties 0 0 1 _ _ _ hsub heq).1⟩

/-- C5 (amended): the Firestore + username variant's filter is literally the
same function as the Firestore + Google-auth one (both cap at 30), but the
localStorage variant applies the same distance, filter and sort logic with a
smaller cap of 20: for a consistent store its output is exactly the first 20
elements of the other variants' output, so the three agree only when at most
20 candidates survive the radius filter. -/
theorem variants_core_equiv (userLat userLng radiusMeters : ℝ) (allQuestions : List Question)
    (store : ℕ → Option Question)
    (hstore : ∀ q ∈ allQuestions, ∃ d, store q.id = some d ∧ d.lat = q.lat ∧ d.lng = q.lng) :
    loadNearbyQuestionsUsername userLat userLng radiusMeters allQuestions =
      loadNearbyQuestions userLat userLng radiusMeters allQuestions ∧
    loadNearbyQuestionsLocal store userLat userLng radiusMeters allQuestions =
      (loadNearbyQuestions userLat userLng radiusMeters allQuestions).take 20 := by
  refine ⟨rfl, ?_⟩
  rw [loadNearbyQuestionsLocal_eq, loadNearbyQuestions_eq, List.take_take]
  norm_num
  apply filterMap_some_of_mem
  intro entry hentry
  have h1 := List.mem_of_mem_take hentry
  rw [List.mem_mergeSort] at h1
  unfold scoredWithin at h1
  rw [List.mem_filter] at h1
  obtain ⟨hmap, _⟩ := h1
  rw [List.mem_map] at hmap
  obtain ⟨q', hq', rfl⟩ := hmap
  obtain ⟨d, hd, hdlat, hdlng⟩ := hstore q' hq'
  show (store q'.id).map _ = some (scoreQuestion userLat userLng q')
  rw [hd]
  simp [scoreQuestion, hdlat, hdlng]

theorem variants_core_equiv_witness :
    (∀ q ∈ ([] : List Question), ∃ d, (fun _ : ℕ => (none : Option Question)) q.id = some d ∧
        d.lat = q.lat ∧ d.lng = q.lng) ∧
    (loadNearbyQuestionsUsername 0 0 1 [] = loadNearbyQuestions 0 0 1 [] ∧
      loadNearbyQuestionsLocal (fun _ => none) 0 0 1 [] = (loadNearbyQuestions 0 0 1 []).take 20) :=
  ⟨by simp, variants_core_equiv 0 0 1 [] (fun _ => none) (by simp)⟩

/-- C5 counterexample: with 21 candidates at the observer's position, all
within the radius, and a store holding every record, the localStorage
variant returns 20 items while the Firestore variants return 21 — the
variants do not produce the same result sequence. -/
theorem variants_differ_counterexample :
    loadNearbyQuestionsLocal (fun n => some ⟨n, 0, 0, 0⟩) 0 0 1
        (List.replicate 21 ⟨0, 0, 0, 0⟩) ≠
      loadNearbyQuestions 0 0 1 (List.replicate 21 ⟨0, 0, 0, 0⟩) := by
  intro hEq
  have hmapped : loadNearbyQuestionsLocal (fun n => some ⟨n, 0, 0, 0⟩) 0 0 1
      (List.replicate 21 ⟨0, 0, 0, 0⟩) =
      (((scoredWithin 0 0 1 (List.replicate 21 ⟨0, 0, 0, 0⟩)).mergeSort distLE).take 20).map
        (fun (entry : Question) => (⟨entry.id, 0, 0, entry.distance⟩ : Question)) := by
    rw [loadNearbyQuestionsLocal_eq]
    exact filterMap_some_eq_map
      (fun (entry : Question) => (⟨entry.id, 0, 0, entry.distance⟩ : Question)) _
  have h1 : (loadNearbyQuestionsLocal (fun n => some ⟨n, 0, 0, 0⟩) 0 0 1
      (List.replicate 21 ⟨0, 0, 0, 0⟩)).length = 20 := by
    rw [hmapped, List.length_map, List.length_take, List.length_mergeSort, scoredWithin_rep,
      List.length_replicate]
    decide
  have h2 : (loadNearbyQuestions 0 0 1 (List.replicate 21 ⟨0, 0, 0, 0⟩)).length = 21 := by
    rw [loadNearbyQuestions_eq, List.length_take, List.length_mergeSort, scoredWithin_rep,
      List.length_replicate]
    decide
  have h3 := congrArg List.length hEq
  rw [h1, h2] at h3
  exact absurd h3 (by norm_num)

end EduVision
